import Mathlib

/-
  Verification of the floorpier installer script (install.py).

  The script is a sequential pipeline of filesystem operations:
  template rendering into a build tree, profile-directory detection,
  installation of user-chrome files into the profile (gated by a prompt),
  and patching of the Sidebery extension archive (gated by a prompt).

  Shallow embedding conventions:
  * Filesystem paths are lists of components (`FPath`); the Python code
    joins components with the platform separator.
  * File contents are `FData`: raw strings, parsed HTML documents
    (the model stores the DOM that BeautifulSoup would produce for the
    bundled HTML files), or zip archives (lists of entries).
  * The filesystem is an association list of path/content pairs together
    with a list of existing directories.
  * The gated installer and patcher are translated into straight-line
    lists of primitive operations (`Op`) that an interpreter (`runOps`)
    executes until the first error, mirroring an uncaught Python
    exception that aborts the remainder of the run.
  * External collaborators (Jinja2, BeautifulSoup, zipfile) are modelled
    at the granularity the script uses them: Jinja2 rendering is an
    arbitrary function on file contents (the script binds no variables),
    BeautifulSoup documents are node trees with lookup-by-id, first-head
    append, replace, and a pretty-printing serializer, and archives map
    to the `FData.zip` constructor.
-/

/-! ## Constants from install.py -/

def SIDEBERY_EXTENSION_ID : String := "3c078156-979c-498b-8990-85f7987dd929"

def SIDEBERY_EXTENSION_FILENAME : String :=
  "\x7b" ++ SIDEBERY_EXTENSION_ID ++ "\x7d.xpi"

def SIDEBERY_CUSTOM_THEME_REL_DIR : String := "themes/floorpier"

def SIDEBERY_CUSTOM_THEME_TAG_ID : String := "floorpier_theme_link"

/-- Paths are lists of components (install.py builds paths with
os.path.join, which concatenates components). -/
abbrev FPath := List String

def BUILD_DIR : FPath := ["build"]

def PROFILE_BUILD_DIR : FPath := ["build", "profile"]

def EXTENSIONS_BUILD_DIR : FPath := ["build", "extensions"]

def SIDEBERY_THEME_BUILD_DIR : FPath := ["build", "sidebery"]

/-- backups/<timestamp>; the timestamp is a run parameter. -/
def BACKUP_DIR (ts : String) : FPath := ["backups", ts]

def EXTENSIONS_BACKUP_DIR (ts : String) : FPath := ["backups", ts, "extensions"]

/-- Python str.lower for the prompt strings (ASCII case folding). -/
def pyLower (s : String) : String := String.mk (s.data.map Char.toLower)

/-- Python str.endswith, on the underlying character lists. -/
def endswith (s : String) (suf : String) : Bool :=
  List.isSuffixOf suf.data s.data

/-! ## Association-list helpers for the filesystem -/

def alookup {α : Type} : List (FPath × α) → FPath → Option α
  | [], _ => none
  | e :: m, k => if e.1 = k then some e.2 else alookup m k

def aerase {α : Type} : List (FPath × α) → FPath → List (FPath × α)
  | [], _ => []
  | e :: m, k => if e.1 = k then aerase m k else e :: aerase m k

/-- Overwriting insert. -/
def aset {α : Type} (m : List (FPath × α)) (k : FPath) (v : α) : List (FPath × α) :=
  (k, v) :: aerase m k

/-- Write a batch of entries in order (later entries win). -/
def writeAll {α : Type} (m : List (FPath × α)) : List (FPath × α) → List (FPath × α)
  | [] => m
  | e :: es => writeAll (aset m e.1 e.2) es

/-- The value of the last entry in the list carrying the given key
(the last write wins, as for sequential file writes). -/
def lastLookup {α : Type} : List (FPath × α) → FPath → Option α
  | [], _ => none
  | e :: es, k =>
    match lastLookup es k with
    | some v => some v
    | none => if e.1 = k then some e.2 else none

/-! ## HTML document model (BeautifulSoup collaborator)

A parsed document is a list of top-level nodes (BeautifulSoup's root
object holds the parsed nodes as children). -/

mutual
inductive Node where
  | text : String → Node
  | elem : String → List (String × String) → NodeList → Node
inductive NodeList where
  | nil : NodeList
  | cons : Node → NodeList → NodeList
end

/-- Attribute lookup in a tag's attribute list. -/
def attrLookup : List (String × String) → String → Option String
  | [], _ => none
  | a :: r, k => if a.1 = k then some a.2 else attrLookup r k

def nodeAttrs : Node → List (String × String)
  | .text _ => []
  | .elem _ a _ => a

mutual
/-- Number of elements in the subtree whose id attribute equals tid. -/
def countIdN (tid : String) : Node → Nat
  | .text _ => 0
  | .elem _ attrs cs =>
    (if attrLookup attrs "id" = some tid then 1 else 0) + countIdL tid cs
def countIdL (tid : String) : NodeList → Nat
  | .nil => 0
  | .cons n l => countIdN tid n + countIdL tid l
end

mutual
/-- soup.find(id=tid) as an existence test (document order search). -/
def findIdN (tid : String) : Node → Bool
  | .text _ => false
  | .elem _ attrs cs =>
    (attrLookup attrs "id" = some tid : Bool) || findIdL tid cs
def findIdL (tid : String) : NodeList → Bool
  | .nil => false
  | .cons n l => findIdN tid n || findIdL tid l
end

mutual
/-- tag.replace_with applied to the first element (in document order)
whose id attribute equals tid; the Bool reports whether a replacement
happened. -/
def replaceFirstN (tid : String) (t : Node) : Node → Node × Bool
  | .text s => (.text s, false)
  | .elem tag attrs cs =>
    if attrLookup attrs "id" = some tid then (t, true)
    else
      let r := replaceFirstL tid t cs
      (.elem tag attrs r.1, r.2)
def replaceFirstL (tid : String) (t : Node) : NodeList → NodeList × Bool
  | .nil => (.nil, false)
  | .cons n l =>
    let rn := replaceFirstN tid t n
    if rn.2 then (.cons rn.1 l, true)
    else
      let rl := replaceFirstL tid t l
      (.cons n rl.1, rl.2)
end

/-- Append a node at the end of a child list. -/
def appendChild : NodeList → Node → NodeList
  | .nil, t => .cons t .nil
  | .cons n l, t => .cons n (appendChild l t)

mutual
/-- soup.head.append: append the node to the first element named head
(document order); the Bool reports whether a head element was found
(soup.head is None otherwise). -/
def appendHeadN (t : Node) : Node → Node × Bool
  | .text s => (.text s, false)
  | .elem tag attrs cs =>
    if tag = "head" then (.elem tag attrs (appendChild cs t), true)
    else
      let r := appendHeadL t cs
      (.elem tag attrs r.1, r.2)
def appendHeadL (t : Node) : NodeList → NodeList × Bool
  | .nil => (.nil, false)
  | .cons n l =>
    let rn := appendHeadN t n
    if rn.2 then (.cons rn.1 l, true)
    else
      let rl := appendHeadL t l
      (.cons n rl.1, rl.2)
end

/-- The link tag constructed by _update_sidebery_themes via soup.new_tag. -/
def cssLinkTag (component : String) : Node :=
  .elem "link"
    [("rel", "stylesheet"),
     ("type", "text/css"),
     ("href", "../" ++ SIDEBERY_CUSTOM_THEME_REL_DIR ++ "/" ++ component ++ ".css"),
     ("id", SIDEBERY_CUSTOM_THEME_TAG_ID)]
    .nil

/-- The in-document patch of _update_sidebery_themes: build the link tag;
if a tag with the marker id exists, replace the first one, otherwise
append the tag to the document head.  soup.head is None when the document
has no head element, and None.append raises AttributeError: that failure
is the none result. -/
def patchComponent (component : String) (d : NodeList) : Option NodeList :=
  let tag := cssLinkTag component
  if findIdL SIDEBERY_CUSTOM_THEME_TAG_ID d then
    some (replaceFirstL SIDEBERY_CUSTOM_THEME_TAG_ID tag d).1
  else
    let r := appendHeadL tag d
    if r.2 then some r.1 else none

def spacesN : Nat → String
  | 0 => ""
  | n + 1 => " " ++ spacesN n

def attrsString : List (String × String) → String
  | [] => ""
  | a :: r => " " ++ a.1 ++ "=" ++ "\"" ++ a.2 ++ "\"" ++ attrsString r

mutual
/-- Pretty-printed serialization (soup.prettify collaborator model):
one line per tag or text run, children indented one step. -/
def prettyN (ind : Nat) : Node → List String
  | .text s => [spacesN ind ++ s]
  | .elem tag attrs cs =>
    (spacesN ind ++ "<" ++ tag ++ attrsString attrs ++ ">")
      :: (prettyL (ind + 1) cs ++ [spacesN ind ++ "</" ++ tag ++ ">"])
def prettyL (ind : Nat) : NodeList → List String
  | .nil => []
  | .cons n l => prettyN ind n ++ prettyL ind l
end

def prettify (d : NodeList) : String :=
  String.intercalate "\n" (prettyL 0 d) ++ "\n"

/-- The whole per-component file rewrite of _update_sidebery_themes at the
document level: patch the parsed document and write back soup.prettify. -/
def updateComponentHtml (component : String) (d : NodeList) : Option String :=
  (patchComponent component d).map prettify

/-! ## Filesystem and operation interpreter -/

/-- File contents: raw strings, parsed HTML documents, or zip archives
(lists of entries keyed by their path inside the archive). -/
inductive FData where
  | str : String → FData
  | doc : NodeList → FData
  | zip : List (FPath × FData) → FData

/-- Python exceptions that the script can raise; none of them is caught,
so the first one aborts the rest of the run. -/
inductive PyErr where
  | fileNotFoundError
  | fileExistsError
  | badZipFile
  | attributeError
  | notImplementedError
  | stopIteration
  | unparsedContent
deriving DecidableEq, Repr

structure FS where
  files : List (FPath × FData)
  dirs : List FPath

/-- All (non-root, nonempty) prefixes of a path: the directories that
os.makedirs(p, exist_ok=True) guarantees to exist afterwards. -/
def prefixesUpTo (p : FPath) : List FPath :=
  (List.range p.length).map (fun i => p.take (i + 1))

def mkdirsFS (fs : FS) (p : FPath) : FS :=
  { fs with dirs := prefixesUpTo p ++ fs.dirs }

def dirExists (fs : FS) (p : FPath) : Bool :=
  fs.dirs.any (fun q => decide (q = p))

/-- The files lying strictly below a directory, keyed by their relative
path under it. -/
def filesUnder (m : List (FPath × FData)) (root : FPath) : List (FPath × FData) :=
  m.filterMap (fun e =>
    if root.isPrefixOf e.1 && decide (root.length < e.1.length) then
      some (e.1.drop root.length, e.2)
    else none)

/-- shutil.make_archive appends .zip to the base name it is given. -/
def zipExtPath : FPath → FPath
  | [] => []
  | [x] => [x ++ ".zip"]
  | x :: xs => x :: zipExtPath xs

/-- Primitive filesystem operations performed by the installer and the
patcher, in the straight-line order the Python code issues them.  The
copy and move destinations are the full destination file paths (the
Python calls pass a directory and the basename is appended). -/
inductive Op where
  | mkdirs (p : FPath)
  | copy (src dst : FPath)
  | copytree (dirsExistOk : Bool) (src dst : FPath)
  | move (src dst : FPath)
  | unpack (src dst : FPath)
  | repack (dir base : FPath)
  | patchHtml (file : FPath) (component : String)
  | print (msg : String)
deriving DecidableEq, Repr

/-- One step of the interpreter; an error models the uncaught Python
exception raised by the corresponding library call. -/
def applyOp (fs : FS) : Op → Except PyErr FS
  | .mkdirs p => .ok (mkdirsFS fs p)
  | .print _ => .ok fs
  | .copy src dst =>
    match alookup fs.files src with
    | none => .error .fileNotFoundError
    | some v => .ok { fs with files := aset fs.files dst v }
  | .move src dst =>
    match alookup fs.files src with
    | none => .error .fileNotFoundError
    | some v => .ok { fs with files := aset (aerase fs.files src) dst v }
  | .copytree ok src dst =>
    if dirExists fs src then
      if ok = false ∧ dirExists fs dst = true then .error .fileExistsError
      else
        .ok { files := writeAll fs.files
                ((filesUnder fs.files src).map (fun e => (dst ++ e.1, e.2))),
              dirs := prefixesUpTo dst ++ fs.dirs }
    else .error .fileNotFoundError
  | .unpack src dst =>
    match alookup fs.files src with
    | none => .error .fileNotFoundError
    | some (.zip es) =>
      .ok { files := writeAll fs.files (es.map (fun e => (dst ++ e.1, e.2))),
            dirs := prefixesUpTo dst ++ fs.dirs }
    | some _ => .error .badZipFile
  | .repack dir base =>
    .ok { fs with files := aset fs.files (zipExtPath base) (.zip (filesUnder fs.files dir)) }
  | .patchHtml file component =>
    match alookup fs.files file with
    | none => .error .fileNotFoundError
    | some (.doc d) =>
      match patchComponent component d with
      | some d2 => .ok { fs with files := aset fs.files file (.str (prettify d2)) }
      | none => .error .attributeError
    | some _ => .error .unparsedContent

structure RunResult where
  fs : FS
  executed : List Op
  err : Option PyErr

/-- Run operations in order until the first error; executed records the
operations that completed. -/
def runOps (fs : FS) : List Op → RunResult
  | [] => ⟨fs, [], none⟩
  | op :: ops =>
    match applyOp fs op with
    | .error e => ⟨fs, [], some e⟩
    | .ok fs2 =>
      let r := runOps fs2 ops
      ⟨r.fs, op :: r.executed, r.err⟩

/-! ## The installer (_install_user_chrome) and patcher (_update_sidebery) -/

/-- Path of the Sidebery archive inside the profile. -/
def xpiPath (pd : FPath) : FPath := pd ++ ["extensions", SIDEBERY_EXTENSION_FILENAME]

/-- build/extensions/<archive filename>, the staging copy. -/
def buildXpiPath : FPath := ["build", "extensions", SIDEBERY_EXTENSION_FILENAME]

/-- build/extensions/<extension id>, the unpack destination. -/
def sideberyBuildPath : FPath := ["build", "extensions", SIDEBERY_EXTENSION_ID]

/-- The custom theme directory inside the unpacked extension. -/
def customThemePath : FPath := sideberyBuildPath ++ ["themes", "floorpier"]

/-- sidebar/sidebar.html inside the unpacked extension. -/
def sidebarHtmlPath : FPath := sideberyBuildPath ++ ["sidebar", "sidebar.html"]

/-- The path shutil.make_archive returns (base name plus .zip). -/
def repackZipPath : FPath :=
  ["build", "extensions", SIDEBERY_EXTENSION_FILENAME ++ ".zip"]

/-- Destination file of the move into the extensions backup directory. -/
def backupXpiPath (ts : String) : FPath :=
  ["backups", ts, "extensions", SIDEBERY_EXTENSION_FILENAME]

/-- The operations _install_user_chrome performs after an affirmative
answer: _backup_user_js, _backup_user_chrome, then the copy of
build/profile into the profile directory. -/
def installBodyOps (pd : FPath) (ts : String) : List Op :=
  [ .mkdirs (BACKUP_DIR ts),
    .copy (pd ++ ["user.js"]) (BACKUP_DIR ts ++ ["user.js"]),
    .print "Successfully backed up user.js",
    .mkdirs (BACKUP_DIR ts),
    .copytree false (pd ++ ["chrome"]) (BACKUP_DIR ts ++ ["chrome"]),
    .print "Successfully backed up user chrome",
    .copytree true PROFILE_BUILD_DIR pd,
    .print "Successfully installed the theme and options into the profile directory" ]

/-- _install_user_chrome: on any answer other than a case-insensitive y
nothing at all happens. -/
def installUserChromeOps (s : String) (pd : FPath) (ts : String) : List Op :=
  if pyLower s = "y" then installBodyOps pd ts else []

def installUserChrome (s : String) (pd : FPath) (ts : String) (fs : FS) : RunResult :=
  runOps fs (installUserChromeOps s pd ts)

/-- The operations of the confirmed branch of _update_sidebery:
_unpack_sidebery, _update_sidebery_themes (makedirs, copytree, HTML
patch of the single hardcoded component), _repack_sidebery,
_backup_sidebery (makedirs and move), and the final copy of the rebuilt
archive over the original path. -/
def sideberyBodyOps (pd : FPath) (ts : String) : List Op :=
  [ .copy (xpiPath pd) buildXpiPath,
    .unpack buildXpiPath sideberyBuildPath,
    .mkdirs customThemePath,
    .copytree true SIDEBERY_THEME_BUILD_DIR customThemePath,
    .patchHtml sidebarHtmlPath "sidebar",
    .repack sideberyBuildPath buildXpiPath,
    .mkdirs (EXTENSIONS_BACKUP_DIR ts),
    .move (xpiPath pd) (backupXpiPath ts),
    .copy repackZipPath (xpiPath pd),
    .print "Successfully installed theme/styles into Sidebery" ]

/-- _update_sidebery: the build/extensions directory is created before
the prompt; everything else only happens on a confirming answer. -/
def updateSideberyOps (s : String) (pd : FPath) (ts : String) : List Op :=
  .mkdirs EXTENSIONS_BUILD_DIR ::
    (if pyLower s = "y" then sideberyBodyOps pd ts else [])

def updateSidebery (s : String) (pd : FPath) (ts : String) (fs : FS) : RunResult :=
  runOps fs (updateSideberyOps s pd ts)

/-! ## Profile locator (_get_profile_dir) -/

inductive EntryKind where
  | efile
  | edir
deriving DecidableEq, Repr

/-- The platform-specific base directory searched for profiles. -/
def profileBaseDir (platform : String) (home : FPath) : Except PyErr FPath :=
  if platform = "darwin" ∨ platform = "linux" then
    .ok (home ++ ["Library", "Application Support", "Floorp", "Profiles"])
  else if platform = "win32" then
    .ok (home ++ ["AppData", "Roaming", "Floorp", "Profiles"])
  else .error .notImplementedError

/-- Whether Path(base).rglob matches the entry against the
*.default-release pattern: strictly below the base directory and the
final name ends with .default-release (fnmatch, case-sensitive). -/
def matchesDefaultRelease (base : FPath) (p : FPath) : Bool :=
  base.isPrefixOf p && decide (base.length < p.length)
    && endswith (p.getLastD "") ".default-release"

/-- _get_profile_dir: next() over the rglob iterator returns the first
matching entry (file or directory) in filesystem order, and raises
StopIteration when there is none. -/
def getProfileDir (platform : String) (home : FPath)
    (entries : List (FPath × EntryKind)) : Except PyErr FPath :=
  match profileBaseDir platform home with
  | .error e => .error e
  | .ok base =>
    match entries.find? (fun e => matchesDefaultRelease base e.1) with
    | some e => .ok e.1
    | none => .error .stopIteration

/-- The gated part of the main pipeline: locate the profile, then run the
installer and the patcher; any error aborts the process (no handler in
the script).  The preceding build preparation touches only the build
tree and is modelled separately by prepareFiles. -/
def mainRun (platform : String) (home : FPath) (entries : List (FPath × EntryKind))
    (s1 s2 : String) (ts : String) (fs : FS) : Except PyErr FS :=
  match getProfileDir platform home entries with
  | .error e => .error e
  | .ok pd =>
    let r1 := installUserChrome s1 pd ts fs
    match r1.err with
    | some e => .error e
    | none =>
      let r2 := updateSidebery s2 pd ts r1.fs
      match r2.err with
      | some e => .error e
      | none => .ok r2.fs

/-! ## Template renderer (_prepare_files)

The theme source tree is a list of (relative path, content) files; the
build tree is the partial map produced by the copy phase (shutil.copytree
with ignore_patterns for the template suffix) followed by the render
phase (os.walk plus Jinja2).  Rendering is an arbitrary function, since
the script binds no variables and the engine is an external collaborator. -/

/-- fnmatch against the *.jinja ignore pattern / str.endswith(".jinja"). -/
def isTemplateName (n : String) : Bool := endswith n ".jinja"

/-- os.path.splitext, base part, for a single filename: split at the last
dot, except that a name whose characters before the last dot are all dots
(such as .jinja) has no extension. -/
def splitextBase (f : String) : String :=
  let r := f.data.reverse
  let suf := r.takeWhile (fun c => c ≠ '.')
  if suf.length = r.length then f
  else
    let base := (r.drop (suf.length + 1)).reverse
    if base.any (fun c => c ≠ '.') then String.mk base else f

def lastNameP : FPath → String
  | [] => ""
  | [x] => x
  | _ :: xs => lastNameP xs

def dropLastP : FPath → FPath
  | [] => []
  | [_] => []
  | x :: xs => x :: dropLastP xs

/-- Output path of a rendered template: same directory, filename with the
extension split off by os.path.splitext. -/
def templateOutPath (p : FPath) : FPath :=
  dropLastP p ++ [splitextBase (lastNameP p)]

/-- Copy phase: copytree(THEME_SOURCE_DIR, BUILD_DIR,
ignore=ignore_patterns("*.jinja"), dirs_exist_ok=True).  The ignore
callback applies to every directory listing, so a file is copied exactly
when no component of its relative path (directory names included)
matches the pattern. -/
def copiedFiles (tree : List (FPath × String)) : List (FPath × String) :=
  tree.filter (fun e => !(e.1.any isTemplateName))

/-- Render phase: os.walk visits every file (ignored directories
included); each file ending in .jinja is rendered and written to the
build tree under its splitext output name. -/
def renderedFiles (render : String → String) (tree : List (FPath × String)) :
    List (FPath × String) :=
  tree.filterMap (fun e =>
    if isTemplateName (lastNameP e.1) then
      some (templateOutPath e.1, render e.2)
    else none)

/-- The build tree produced by _prepare_files, as a partial map from
relative path to content: the render phase runs after the copy phase, so
its writes win; within a phase the last write wins. -/
def prepareFiles (render : String → String) (tree : List (FPath × String))
    (p : FPath) : Option String :=
  match lastLookup (renderedFiles render tree) p with
  | some c => some c
  | none => lastLookup (copiedFiles tree) p

/-! ## Concrete sample data used by witnesses and counterexamples -/

/-- A link element already carrying the marker id. -/
def markerLinkNode : Node :=
  .elem "link" [("id", SIDEBERY_CUSTOM_THEME_TAG_ID)] .nil

/-- A document holding two marker elements. -/
def dupMarkerDoc : NodeList := .cons markerLinkNode (.cons markerLinkNode .nil)

/-- An ordinary component document with an empty head. -/
def sampleHeadDoc : NodeList :=
  .cons (.elem "html" []
    (.cons (.elem "head" [] .nil) (.cons (.elem "body" [] .nil) .nil))) .nil

/-- A document with neither a marker element nor a head element. -/
def headlessDoc : NodeList := .cons (.elem "html" [] .nil) .nil

/-- Marker-element count of the document after patching the same
component twice (none when a patch application fails). -/
def patchCountTwice (component : String) (d : NodeList) : Option Nat :=
  (patchComponent component d).bind (fun d1 =>
    (patchComponent component d1).map (countIdL SIDEBERY_CUSTOM_THEME_TAG_ID))

/-- Entries of a small Sidebery archive. -/
def demoSidebarEntries : List (FPath × FData) :=
  [ (["manifest.json"], .str "manifest"),
    (["sidebar", "sidebar.html"], .doc sampleHeadDoc) ]

def demoProfilePath : FPath := ["", "home", "user", "abcd1234.default-release"]

/-- A profile filesystem holding the Sidebery archive and the rendered
theme build directory (and no user.js file). -/
def demoProfileFS : FS :=
  { files := [ (xpiPath demoProfilePath, .zip demoSidebarEntries) ],
    dirs := [ ["build"], ["build", "sidebery"] ] }

/-! ## Intermediate states of a confirmed patcher run

Named after the position in the confirmed operation sequence; used to
state the step equations of the run compactly. -/

/-- Files after the staging copy of the archive into build/extensions. -/
def patchF1 (fs : FS) (c : FData) : List (FPath × FData) :=
  aset fs.files buildXpiPath c

/-- Files after unpacking the archive entries below the build tree. -/
def patchF2 (fs : FS) (es : List (FPath × FData)) : List (FPath × FData) :=
  writeAll (patchF1 fs (.zip es)) (es.map (fun e => (sideberyBuildPath ++ e.1, e.2)))

/-- The copytree writes of the rendered theme into the unpacked tree. -/
def ctEntries (fs : FS) (es : List (FPath × FData)) : List (FPath × FData) :=
  (filesUnder (patchF2 fs es) SIDEBERY_THEME_BUILD_DIR).map
    (fun e => (customThemePath ++ e.1, e.2))

/-- Files after the theme copytree. -/
def patchF3 (fs : FS) (es : List (FPath × FData)) : List (FPath × FData) :=
  writeAll (patchF2 fs es) (ctEntries fs es)

/-- Files after the sidebar HTML rewrite. -/
def patchF4 (fs : FS) (es : List (FPath × FData)) (d2 : NodeList) :
    List (FPath × FData) :=
  aset (patchF3 fs es) sidebarHtmlPath (FData.str (prettify d2))

/-- Files after the repack wrote the fresh archive. -/
def patchF5 (fs : FS) (es : List (FPath × FData)) (d2 : NodeList) :
    List (FPath × FData) :=
  aset (patchF4 fs es d2) repackZipPath
    (FData.zip (filesUnder (patchF4 fs es d2) sideberyBuildPath))

/-- Files after the move of the original archive into the backups. -/
def patchF6 (fs : FS) (es : List (FPath × FData)) (d2 : NodeList)
    (pd : FPath) (ts : String) : List (FPath × FData) :=
  aset (aerase (patchF5 fs es d2) (xpiPath pd)) (backupXpiPath ts) (FData.zip es)

/-- Files after the final overwrite of the archive inside the profile. -/
def patchF7 (fs : FS) (es : List (FPath × FData)) (d2 : NodeList)
    (pd : FPath) (ts : String) : List (FPath × FData) :=
  aset (patchF6 fs es d2 pd ts) (xpiPath pd)
    (FData.zip (filesUnder (patchF4 fs es d2) sideberyBuildPath))

/-- Directories after the pre-prompt makedirs. -/
def patchD1 (fs : FS) : List FPath := prefixesUpTo EXTENSIONS_BUILD_DIR ++ fs.dirs

/-- Directories after the unpack. -/
def patchD2 (fs : FS) : List FPath := prefixesUpTo sideberyBuildPath ++ patchD1 fs

/-- Directories after makedirs of the custom theme directory. -/
def patchD3 (fs : FS) : List FPath := prefixesUpTo customThemePath ++ patchD2 fs

/-- Directories after the theme copytree. -/
def patchD4 (fs : FS) : List FPath := prefixesUpTo customThemePath ++ patchD3 fs

/-- Directories after makedirs of the extensions backup directory. -/
def patchD6 (fs : FS) (ts : String) : List FPath :=
  prefixesUpTo (EXTENSIONS_BACKUP_DIR ts) ++ patchD4 fs

/-! ## Lemmas about the association-list filesystem -/

theorem alookup_aset_eq {α : Type} (m : List (FPath × α)) (k : FPath) (v : α) :
    alookup (aset m k v) k = some v := by
  simp [aset, alookup]

theorem alookup_aerase_ne {α : Type} (m : List (FPath × α)) (k k' : FPath) (h : k' ≠ k) :
    alookup (aerase m k) k' = alookup m k' := by
  induction m with
  | nil => rfl
  | cons e t ih =>
    by_cases he : e.1 = k
    · rw [show aerase (e :: t) k = aerase t k by simp [aerase, he], ih,
        show alookup (e :: t) k' = alookup t k' by
          simp [alookup]
          intro hc
          exact absurd (he ▸ hc) (Ne.symm h)]
    · simp only [aerase, if_neg he, alookup, ih]

theorem alookup_aerase_self {α : Type} (m : List (FPath × α)) (k : FPath) :
    alookup (aerase m k) k = none := by
  induction m with
  | nil => rfl
  | cons e t ih =>
    by_cases he : e.1 = k
    · simp only [aerase, if_pos he, ih]
    · simp only [aerase, if_neg he, alookup, ih, if_neg he]

theorem alookup_aset_ne {α : Type} (m : List (FPath × α)) (k k' : FPath) (v : α)
    (h : k' ≠ k) : alookup (aset m k v) k' = alookup m k' := by
  simp only [aset, alookup, if_neg (fun hc : k = k' => h hc.symm)]
  exact alookup_aerase_ne m k k' h

theorem lastLookup_eq_none {α : Type} (l : List (FPath × α)) (k : FPath)
    (h : ∀ e ∈ l, e.1 ≠ k) : lastLookup l k = none := by
  induction l with
  | nil => rfl
  | cons e t ih =>
    simp only [lastLookup, ih (fun x hx => h x (List.mem_cons_of_mem e hx)),
      if_neg (h e (List.mem_cons_self e t))]

theorem alookup_writeAll {α : Type} (es : List (FPath × α)) (m : List (FPath × α))
    (k : FPath) :
    alookup (writeAll m es) k =
      match lastLookup es k with
      | some v => some v
      | none => alookup m k := by
  induction es generalizing m with
  | nil => simp [writeAll, lastLookup]
  | cons e t ih =>
    show alookup (writeAll (aset m e.1 e.2) t) k = _
    rw [ih]
    rcases h : lastLookup t k with _ | v
    · simp only [lastLookup, h]
      by_cases he : e.1 = k
      · rw [if_pos he]
        show alookup (aset m e.1 e.2) k = some e.2
        rw [← he]
        exact alookup_aset_eq m e.1 e.2
      · rw [if_neg he]
        show alookup (aset m e.1 e.2) k = alookup m k
        exact alookup_aset_ne m e.1 k e.2 (fun hc => he hc.symm)
    · simp only [lastLookup, h]

theorem alookup_writeAll_none {α : Type} {es : List (FPath × α)} {k : FPath}
    (m : List (FPath × α)) (h : lastLookup es k = none) :
    alookup (writeAll m es) k = alookup m k := by
  rw [alookup_writeAll, h]

theorem alookup_writeAll_some {α : Type} {es : List (FPath × α)} {k : FPath} {v : α}
    (m : List (FPath × α)) (h : lastLookup es k = some v) :
    alookup (writeAll m es) k = some v := by
  rw [alookup_writeAll, h]

theorem lastLookup_map_prepend {α : Type} (p : FPath) (es : List (FPath × α))
    (k : FPath) :
    lastLookup (es.map (fun e => (p ++ e.1, e.2))) (p ++ k) = lastLookup es k := by
  induction es with
  | nil => rfl
  | cons e t ih =>
    simp only [List.map_cons, lastLookup, ih]
    rcases lastLookup t k with _ | v
    · by_cases he : e.1 = k
      · simp [he]
      · rw [if_neg (fun hc => he (List.append_cancel_left hc)), if_neg he]
    · rfl

theorem lastLookup_not_under {α : Type} (p : FPath) (es : List (FPath × α))
    (k : FPath) (h : ¬ p <+: k) :
    lastLookup (es.map (fun e => (p ++ e.1, e.2))) k = none := by
  apply lastLookup_eq_none
  intro e he
  rcases List.mem_map.1 he with ⟨a, _, rfl⟩
  intro hc
  exact h (hc ▸ List.prefix_append p a.1)

theorem lastLookup_of_nodup {α : Type} (l : List (FPath × α)) (k : FPath) (v : α)
    (hn : (l.map Prod.fst).Nodup) (hm : (k, v) ∈ l) : lastLookup l k = some v := by
  induction l with
  | nil => cases hm
  | cons e t ih =>
    rcases List.mem_cons.1 hm with he | ht
    · subst he
      have hk : k ∉ t.map Prod.fst := (List.nodup_cons.1 hn).1
      have hnone : lastLookup t k = none := by
        apply lastLookup_eq_none
        intro x hx hc
        exact hk (hc ▸ List.mem_map_of_mem Prod.fst hx)
      simp [lastLookup, hnone]
    · have := ih (List.nodup_cons.1 hn).2 ht
      simp only [lastLookup, this]

/-! ## Path disequality helpers -/

theorem ne_of_head_ne {x y : String} (a b : List String) (h : x ≠ y) :
    (x :: a : FPath) ≠ y :: b := by
  intro hc
  exact h (List.cons_eq_cons.1 hc).1

theorem append_ne_append_head (p : FPath) {x y : String} (a b : FPath) (h : x ≠ y) :
    p ++ x :: a ≠ p ++ y :: b := by
  intro hc
  exact h (List.cons_eq_cons.1 (List.append_cancel_left hc)).1

/-! ## Lemmas about the operation interpreter -/

theorem runOps_nil (fs : FS) : runOps fs [] = ⟨fs, [], none⟩ := rfl

theorem runOps_cons_ok {fs fs2 : FS} {op : Op} (h : applyOp fs op = .ok fs2)
    (ops : List Op) :
    runOps fs (op :: ops) =
      ⟨(runOps fs2 ops).fs, op :: (runOps fs2 ops).executed, (runOps fs2 ops).err⟩ := by
  simp [runOps, h]

theorem runOps_cons_err {fs : FS} {op : Op} {e : PyErr} (h : applyOp fs op = .error e)
    (ops : List Op) : runOps fs (op :: ops) = ⟨fs, [], some e⟩ := by
  simp [runOps, h]

theorem dirExists_iff (fs : FS) (p : FPath) : dirExists fs p = true ↔ p ∈ fs.dirs := by
  simp [dirExists, List.any_eq_true]

theorem applyOp_dirs_mono {fs fs2 : FS} {op : Op} (h : applyOp fs op = .ok fs2) :
    ∀ q ∈ fs.dirs, q ∈ fs2.dirs := by
  intro q hq
  cases op with
  | mkdirs p =>
    simp only [applyOp, Except.ok.injEq] at h
    rw [← h]
    exact List.mem_append_right _ hq
  | print m =>
    simp only [applyOp, Except.ok.injEq] at h
    rw [← h]
    exact hq
  | copy src dst =>
    rcases ha : alookup fs.files src with _ | v
    · simp [applyOp, ha] at h
    · simp only [applyOp, ha, Except.ok.injEq] at h
      rw [← h]
      exact hq
  | move src dst =>
    rcases ha : alookup fs.files src with _ | v
    · simp [applyOp, ha] at h
    · simp only [applyOp, ha, Except.ok.injEq] at h
      rw [← h]
      exact hq
  | copytree ok src dst =>
    simp only [applyOp] at h
    split at h
    · split at h
      · simp at h
      · simp only [Except.ok.injEq] at h
        rw [← h]
        exact List.mem_append_right _ hq
    · simp at h
  | unpack src dst =>
    rcases ha : alookup fs.files src with _ | v
    · simp [applyOp, ha] at h
    · cases v with
      | zip es =>
        simp only [applyOp, ha, Except.ok.injEq] at h
        rw [← h]
        exact List.mem_append_right _ hq
      | str s => simp [applyOp, ha] at h
      | doc d => simp [applyOp, ha] at h
  | repack dir base =>
    simp only [applyOp, Except.ok.injEq] at h
    rw [← h]
    exact hq
  | patchHtml file component =>
    rcases ha : alookup fs.files file with _ | v
    · simp [applyOp, ha] at h
    · cases v with
      | doc d =>
        rcases hp : patchComponent component d with _ | d2
        · simp [applyOp, ha, hp] at h
        · simp only [applyOp, ha, hp, Except.ok.injEq] at h
          rw [← h]
          exact hq
      | str s => simp [applyOp, ha] at h
      | zip es => simp [applyOp, ha] at h

theorem runOps_dirs_mono (ops : List Op) :
    ∀ (fs : FS) (q : FPath), q ∈ fs.dirs → q ∈ (runOps fs ops).fs.dirs := by
  induction ops with
  | nil =>
    intro fs q h
    exact h
  | cons op t ih =>
    intro fs q h
    rcases hop : applyOp fs op with e | fs2
    · rw [runOps_cons_err hop]
      exact h
    · rw [runOps_cons_ok hop]
      exact ih fs2 q (applyOp_dirs_mono hop q h)

/-! ## Lemmas about the HTML document model -/

mutual
theorem findIdN_iff_countIdN (tid : String) :
    ∀ n : Node, findIdN tid n = true ↔ countIdN tid n ≠ 0
  | .text s => by simp [findIdN, countIdN]
  | .elem t a cs => by
    simp [findIdN, countIdN, Bool.or_eq_true, findIdL_iff_countIdL tid cs]
    rcases h : attrLookup a "id" with _ | v
    · simp [h]
    · by_cases hv : v = tid <;> simp [hv]
theorem findIdL_iff_countIdL (tid : String) :
    ∀ l : NodeList, findIdL tid l = true ↔ countIdL tid l ≠ 0
  | .nil => by simp [findIdL, countIdL]
  | .cons n l => by
    simp [findIdL, countIdL, Bool.or_eq_true, findIdN_iff_countIdN tid n,
      findIdL_iff_countIdL tid l]
    omega
end

mutual
theorem replaceFirstN_of_count_zero (tid : String) (t : Node) :
    ∀ n : Node, countIdN tid n = 0 → replaceFirstN tid t n = (n, false)
  | .text s => fun _ => rfl
  | .elem tg a cs => fun h => by
    simp only [countIdN, Nat.add_eq_zero] at h
    have ha : ¬ attrLookup a "id" = some tid := by
      intro hc
      simp [hc] at h
    simp only [replaceFirstN, if_neg ha,
      replaceFirstL_of_count_zero tid t cs h.2]
theorem replaceFirstL_of_count_zero (tid : String) (t : Node) :
    ∀ l : NodeList, countIdL tid l = 0 → replaceFirstL tid t l = (l, false)
  | .nil => fun _ => rfl
  | .cons n l => fun h => by
    simp only [countIdL, Nat.add_eq_zero] at h
    simp [replaceFirstL, replaceFirstN_of_count_zero tid t n h.1,
      replaceFirstL_of_count_zero tid t l h.2]
end

mutual
theorem replaceFirstN_count_one (tid : String) (t : Node) :
    ∀ n : Node, countIdN tid n = 1 →
      (replaceFirstN tid t n).2 = true ∧
      countIdN tid (replaceFirstN tid t n).1 = countIdN tid t
  | .text s => by simp [countIdN]
  | .elem tg a cs => fun h => by
    by_cases ha : attrLookup a "id" = some tid
    · simp [replaceFirstN, if_pos ha]
    · have hcs : countIdL tid cs = 1 := by
        simp only [countIdN, if_neg ha, Nat.zero_add] at h
        exact h
      obtain ⟨h1, h2⟩ := replaceFirstL_count_one tid t cs hcs
      simp [replaceFirstN, if_neg ha, h1, countIdN, h2]
theorem replaceFirstL_count_one (tid : String) (t : Node) :
    ∀ l : NodeList, countIdL tid l = 1 →
      (replaceFirstL tid t l).2 = true ∧
      countIdL tid (replaceFirstL tid t l).1 = countIdN tid t
  | .nil => by simp [countIdL]
  | .cons n l => fun h => by
    simp only [countIdL] at h
    rcases hn : countIdN tid n with _ | k
    · have hl : countIdL tid l = 1 := by omega
      have h0 := replaceFirstN_of_count_zero tid t n hn
      obtain ⟨h1, h2⟩ := replaceFirstL_count_one tid t l hl
      simp [replaceFirstL, h0, h1, countIdL, hn, h2]
    · have hn1 : countIdN tid n = 1 := by omega
      have hl0 : countIdL tid l = 0 := by omega
      obtain ⟨h1, h2⟩ := replaceFirstN_count_one tid t n hn1
      simp [replaceFirstL, h1, countIdL, h2, hl0]
end

theorem countIdL_appendChild (tid : String) (t : Node) :
    ∀ l : NodeList, countIdL tid (appendChild l t) = countIdL tid l + countIdN tid t
  | .nil => by simp [appendChild, countIdL]
  | .cons n l => by
    simp [appendChild, countIdL, countIdL_appendChild tid t l]
    omega

mutual
theorem appendHeadN_count (tid : String) (t : Node) :
    ∀ n : Node, (appendHeadN t n).2 = true →
      countIdN tid (appendHeadN t n).1 = countIdN tid n + countIdN tid t
  | .text s => by simp [appendHeadN]
  | .elem tg a cs => fun h => by
    by_cases hh : tg = "head"
    · simp [appendHeadN, if_pos hh, countIdN, countIdL_appendChild]
      omega
    · have h2 : (appendHeadL t cs).2 = true := by
        simpa [appendHeadN, if_neg hh] using h
      simp [appendHeadN, if_neg hh, countIdN, appendHeadL_count tid t cs h2]
      omega
theorem appendHeadL_count (tid : String) (t : Node) :
    ∀ l : NodeList, (appendHeadL t l).2 = true →
      countIdL tid (appendHeadL t l).1 = countIdL tid l + countIdN tid t
  | .nil => by simp [appendHeadL]
  | .cons n l => fun h => by
    rcases hb : (appendHeadN t n).2 with _ | _
    · have h2 : (appendHeadL t l).2 = true := by
        simpa [appendHeadL, hb] using h
      simp [appendHeadL, hb, countIdL, appendHeadL_count tid t l h2]
      omega
    · simp [appendHeadL, hb, countIdL, appendHeadN_count tid t n hb]
      omega
end

theorem countIdN_cssLinkTag (component : String) :
    countIdN SIDEBERY_CUSTOM_THEME_TAG_ID (cssLinkTag component) = 1 := by
  simp [cssLinkTag, countIdN, countIdL, attrLookup, SIDEBERY_CUSTOM_THEME_TAG_ID]

/-- After one successful application to a document carrying at most one
marker element, the document carries exactly one marker element. -/
theorem patchComponent_count (component : String) (d d1 : NodeList)
    (hle : countIdL SIDEBERY_CUSTOM_THEME_TAG_ID d ≤ 1)
    (h : patchComponent component d = some d1) :
    countIdL SIDEBERY_CUSTOM_THEME_TAG_ID d1 = 1 := by
  rcases hc : countIdL SIDEBERY_CUSTOM_THEME_TAG_ID d with _ | k
  · have hf : findIdL SIDEBERY_CUSTOM_THEME_TAG_ID d = false := by
      rcases hb : findIdL SIDEBERY_CUSTOM_THEME_TAG_ID d with _ | _
      · rfl
      · exact absurd hc ((findIdL_iff_countIdL _ d).1 hb)
    simp only [patchComponent, hf, Bool.false_eq_true, if_false] at h
    rcases hb2 : (appendHeadL (cssLinkTag component) d).2 with _ | _
    · simp [hb2] at h
    · simp only [hb2, if_true] at h
      obtain rfl : (appendHeadL (cssLinkTag component) d).1 = d1 := Option.some.inj h
      rw [appendHeadL_count _ _ d hb2, hc, countIdN_cssLinkTag]
  · have hc1 : countIdL SIDEBERY_CUSTOM_THEME_TAG_ID d = 1 := by omega
    have hf : findIdL SIDEBERY_CUSTOM_THEME_TAG_ID d = true :=
      (findIdL_iff_countIdL _ d).2 (by omega)
    simp only [patchComponent, hf, if_true] at h
    obtain ⟨-, h2⟩ :=
      replaceFirstL_count_one SIDEBERY_CUSTOM_THEME_TAG_ID (cssLinkTag component) d hc1
    obtain rfl :
        (replaceFirstL SIDEBERY_CUSTOM_THEME_TAG_ID (cssLinkTag component) d).1 = d1 :=
      Option.some.inj h
    rw [h2, countIdN_cssLinkTag]

/-! ## Lemmas about filenames and splitext -/

theorem takeWhile_all_append {p : Char → Bool} (l1 : List Char) (x : Char)
    (l2 : List Char) (h1 : ∀ c ∈ l1, p c = true) (hx : p x = false) :
    List.takeWhile p (l1 ++ x :: l2) = l1 := by
  induction l1 with
  | nil => simp [List.takeWhile_cons, hx]
  | cons c t ih =>
    simp only [List.cons_append, List.takeWhile_cons,
      h1 c (List.mem_cons_self c t), if_true]
    rw [ih (fun a ha => h1 a (List.mem_cons_of_mem c ha))]

theorem endswith_append (b s : String) : endswith (b ++ s) s = true := by
  obtain ⟨bd⟩ := b
  obtain ⟨sd⟩ := s
  show List.isSuffixOf sd (bd ++ sd) = true
  rw [List.isSuffixOf_iff_suffix]
  exact List.suffix_append bd sd

theorem isTemplateName_append (b : String) :
    isTemplateName (b ++ ".jinja") = true :=
  endswith_append b ".jinja"

/-- os.path.splitext strips the .jinja extension whenever the remaining
base name is nonempty and holds at least one character other than a dot. -/
theorem splitextBase_append_jinja (b : String)
    (hb : ∃ c ∈ b.data, c ≠ '.') :
    splitextBase (b ++ ".jinja") = b := by
  obtain ⟨bd⟩ := b
  have hdata : (String.mk bd ++ ".jinja").data = bd ++ ['.', 'j', 'i', 'n', 'j', 'a'] := rfl
  have hrev : (String.mk bd ++ ".jinja").data.reverse
      = ['a', 'j', 'n', 'i', 'j'] ++ '.' :: bd.reverse := by
    rw [hdata, List.reverse_append]
    rfl
  have htake : List.takeWhile (fun c => c ≠ '.')
      (['a', 'j', 'n', 'i', 'j'] ++ '.' :: bd.reverse) = ['a', 'j', 'n', 'i', 'j'] := by
    apply takeWhile_all_append
    · intro c hc
      fin_cases hc <;> decide
    · decide
  have hlen : (['a', 'j', 'n', 'i', 'j'] : List Char).length
      ≠ (['a', 'j', 'n', 'i', 'j'] ++ '.' :: bd.reverse).length := by
    simp
  have hdrop : List.drop ((['a', 'j', 'n', 'i', 'j'] : List Char).length + 1)
      (['a', 'j', 'n', 'i', 'j'] ++ '.' :: bd.reverse) = bd.reverse := by
    have hsplit : (['a', 'j', 'n', 'i', 'j'] ++ '.' :: bd.reverse)
        = ['a', 'j', 'n', 'i', 'j', '.'] ++ bd.reverse := by simp
    have h6 : (['a', 'j', 'n', 'i', 'j'] : List Char).length + 1
        = (['a', 'j', 'n', 'i', 'j', '.'] : List Char).length := rfl
    rw [hsplit, h6]
    exact List.drop_left ['a', 'j', 'n', 'i', 'j', '.'] bd.reverse
  have hany : (bd.reverse.reverse).any (fun c => c ≠ '.') = true := by
    rw [List.reverse_reverse]
    rcases hb with ⟨c, hc, hcd⟩
    simp only [List.any_eq_true]
    exact ⟨c, hc, by simpa using hcd⟩
  simp only [splitextBase, hrev, htake, hlen, if_false, hdrop, hany, if_true]
  rw [List.reverse_reverse]

theorem lastNameP_append (d : FPath) (f : String) : lastNameP (d ++ [f]) = f := by
  induction d with
  | nil => rfl
  | cons x t ih =>
    cases t with
    | nil => simp [lastNameP]
    | cons y u =>
      simp only [List.cons_append, lastNameP]
      exact ih

theorem dropLastP_append (d : FPath) (f : String) : dropLastP (d ++ [f]) = d := by
  induction d with
  | nil => rfl
  | cons x t ih =>
    cases t with
    | nil => rfl
    | cons y u =>
      show x :: dropLastP ((y :: u) ++ [f]) = x :: (y :: u)
      rw [ih]

theorem templateOutPath_append (d : FPath) (f : String) :
    templateOutPath (d ++ [f]) = d ++ [splitextBase f] := by
  simp [templateOutPath, lastNameP_append, dropLastP_append]

/-! ## Lemmas about the build tree (_prepare_files) -/

theorem mem_renderedFiles {render : String → String} {tree : List (FPath × String)}
    {e : FPath × String} (he : e ∈ renderedFiles render tree) :
    ∃ q c', (q, c') ∈ tree ∧ isTemplateName (lastNameP q) = true ∧
      e = (templateOutPath q, render c') := by
  rcases List.mem_filterMap.1 he with ⟨a, ha, hfa⟩
  by_cases ht : isTemplateName (lastNameP a.1) = true
  · rw [if_pos ht] at hfa
    exact ⟨a.1, a.2, ha, ht, (Option.some.inj hfa).symm⟩
  · rw [if_neg ht] at hfa
    cases hfa

theorem lastLookup_renderedFiles_none (render : String → String)
    (tree : List (FPath × String)) (p : FPath)
    (h : ∀ q c', (q, c') ∈ tree → isTemplateName (lastNameP q) = true →
      templateOutPath q ≠ p) :
    lastLookup (renderedFiles render tree) p = none := by
  apply lastLookup_eq_none
  intro e he
  rcases mem_renderedFiles he with ⟨q, c', hq, hqt, rfl⟩
  exact h q c' hq hqt

theorem lastLookup_copiedFiles (tree : List (FPath × String)) (p : FPath) (c : String)
    (hn : (tree.map Prod.fst).Nodup) (hm : (p, c) ∈ tree)
    (hclean : p.any isTemplateName = false) :
    lastLookup (copiedFiles tree) p = some c := by
  apply lastLookup_of_nodup
  · exact hn.sublist ((List.filter_sublist tree).map Prod.fst)
  · exact List.mem_filter.2 ⟨hm, by simp [hclean]⟩

theorem lastLookup_renderedFiles (render : String → String)
    (tree : List (FPath × String)) (p : FPath) (c : String)
    (hn : (tree.map Prod.fst).Nodup)
    (hm : (p, c) ∈ tree)
    (ht : isTemplateName (lastNameP p) = true)
    (hu : ∀ q c', (q, c') ∈ tree → isTemplateName (lastNameP q) = true →
      templateOutPath q = templateOutPath p → q = p) :
    lastLookup (renderedFiles render tree) (templateOutPath p) = some (render c) := by
  induction tree with
  | nil => cases hm
  | cons e t ih =>
    rcases List.mem_cons.1 hm with he | hmt
    · subst he
      have hkeynone : lastLookup (renderedFiles render t) (templateOutPath p) = none := by
        apply lastLookup_eq_none
        intro x hx hc
        rcases mem_renderedFiles hx with ⟨q, c', hq, hqt, rfl⟩
        have hqp : q = p := hu q c' (List.mem_cons_of_mem _ hq) hqt hc
        have hqmem : q ∈ t.map Prod.fst := List.mem_map_of_mem Prod.fst hq
        exact (List.nodup_cons.1 hn).1 (hqp ▸ hqmem)
      have hrw : renderedFiles render ((p, c) :: t)
          = (templateOutPath p, render c) :: renderedFiles render t := by
        simp [renderedFiles, List.filterMap_cons, ht]
      rw [hrw]
      simp [lastLookup, hkeynone]
    · have hres := ih (List.nodup_cons.1 hn).2 hmt
        (fun q c' hq hqt hout => hu q c' (List.mem_cons_of_mem _ hq) hqt hout)
      by_cases hte : isTemplateName (lastNameP e.1) = true
      · have hrw : renderedFiles render (e :: t)
            = (templateOutPath e.1, render e.2) :: renderedFiles render t := by
          simp [renderedFiles, List.filterMap_cons, hte]
        rw [hrw]
        simp only [lastLookup, hres]
      · have hrw : renderedFiles render (e :: t) = renderedFiles render t := by
          simp [renderedFiles, List.filterMap_cons, hte]
        rw [hrw, hres]

/-! ## Claim theorems -/

/-- C10: on platform identifier linux the profile locator searches exactly
the same base directory as on darwin, namely the macOS-style path
<home>/Library/Application Support/Floorp/Profiles, rather than a
Linux-specific configuration directory. -/
theorem claim_C10 (home : FPath) :
    profileBaseDir "linux" home = profileBaseDir "darwin" home ∧
    profileBaseDir "linux" home =
      .ok (home ++ ["Library", "Application Support", "Floorp", "Profiles"]) := by
  constructor <;> simp [profileBaseDir]

/-- C7 counterexample: the claim asserts that on a supported platform the
locator fails with the exhausted-iterator error whenever no DIRECTORY
matching the pattern exists.  Path.rglob also yields plain files, so a
filesystem whose only match is a file makes the locator succeed: no
directory entry matches, yet the result is ok rather than an error. -/
theorem claim_C7_counterexample :
    (∀ e ∈ [(["", "home", "user", "Library", "Application Support", "Floorp",
        "Profiles", "p.default-release"], EntryKind.efile)], e.2 ≠ EntryKind.edir) ∧
    getProfileDir "linux" ["", "home", "user"]
      [(["", "home", "user", "Library", "Application Support", "Floorp",
        "Profiles", "p.default-release"], EntryKind.efile)] =
      .ok ["", "home", "user", "Library", "Application Support", "Floorp",
        "Profiles", "p.default-release"] := by
  exact ⟨by decide, rfl⟩

/-- C7 (amended): on a supported platform, if no entry at all (file or
directory) under the platform base directory matches the
*.default-release pattern, the locator fails with the exhausted-iterator
StopIteration error, which no caller catches, so the whole gated pipeline
aborts with that error. -/
theorem claim_C7 (platform : String) (home : FPath)
    (entries : List (FPath × EntryKind)) (s1 s2 ts : String) (fs : FS)
    (hplat : platform = "darwin" ∨ platform = "linux" ∨ platform = "win32")
    (hnone : ∀ base, profileBaseDir platform home = .ok base →
      ∀ e ∈ entries, matchesDefaultRelease base e.1 = false) :
    getProfileDir platform home entries = .error .stopIteration ∧
    mainRun platform home entries s1 s2 ts fs = .error .stopIteration := by
  have hbase : ∃ base, profileBaseDir platform home = Except.ok base := by
    rcases hplat with h | h | h <;> subst h <;> exact ⟨_, rfl⟩
  rcases hbase with ⟨base, hb⟩
  have hfind : entries.find? (fun e => matchesDefaultRelease base e.1) = none :=
    List.find?_eq_none.2 (fun e he => by simp [hnone base hb e he])
  have hg : getProfileDir platform home entries = .error .stopIteration := by
    simp [getProfileDir, hb, hfind]
  exact ⟨hg, by simp [mainRun, hg]⟩

theorem claim_C7_witness :
    getProfileDir "linux" ["", "home", "user"] [] = .error .stopIteration ∧
    mainRun "linux" ["", "home", "user"] [] "y" "y" "t0" demoProfileFS =
      .error .stopIteration :=
  claim_C7 "linux" ["", "home", "user"] [] "y" "y" "t0" demoProfileFS
    (Or.inr (Or.inl rfl))
    (fun _ _ e he => absurd he (List.not_mem_nil e))

/-- C1: both prompts proceed exactly when the lowercased input is y (the
gated operation lists are nonempty beyond the pre-prompt step); on any
other input the installer performs nothing at all, and the patcher
changes no file whatsoever, so the profile directory and the extension
archive at its original path are byte-for-byte unchanged. -/
theorem claim_C1 (s : String) (pd : FPath) (ts : String) (fs : FS) :
    ((pyLower s = "y") ↔ installUserChromeOps s pd ts ≠ []) ∧
    ((pyLower s = "y") ↔ (updateSideberyOps s pd ts).length ≠ 1) ∧
    (pyLower s ≠ "y" →
      installUserChrome s pd ts fs = ⟨fs, [], none⟩ ∧
      (updateSidebery s pd ts fs).fs.files = fs.files ∧
      (updateSidebery s pd ts fs).err = none ∧
      (updateSidebery s pd ts fs).executed = [Op.mkdirs EXTENSIONS_BUILD_DIR]) := by
  refine ⟨?_, ?_, ?_⟩
  · by_cases h : pyLower s = "y" <;> simp [installUserChromeOps, installBodyOps, h]
  · by_cases h : pyLower s = "y" <;> simp [updateSideberyOps, sideberyBodyOps, h]
  · intro h
    have h1 : installUserChromeOps s pd ts = [] := by simp [installUserChromeOps, h]
    have h2 : updateSideberyOps s pd ts = [Op.mkdirs EXTENSIONS_BUILD_DIR] := by
      simp [updateSideberyOps, h]
    refine ⟨by simp [installUserChrome, h1, runOps], ?_, ?_, ?_⟩ <;>
      simp [updateSidebery, updateSideberyOps, h, runOps, applyOp, mkdirsFS]

theorem claim_C1_witness :
    installUserChrome "n" demoProfilePath "t0" demoProfileFS = ⟨demoProfileFS, [], none⟩ ∧
    (updateSidebery "N" demoProfilePath "t0" demoProfileFS).fs.files =
      demoProfileFS.files := by
  have h1 := (claim_C1 "n" demoProfilePath "t0" demoProfileFS).2.2 (by decide)
  have h2 := (claim_C1 "N" demoProfilePath "t0" demoProfileFS).2.2 (by decide)
  exact ⟨h1.1, h2.2.1⟩

/-- C9: _update_sidebery runs makedirs on build/extensions before
prompting, so that directory exists after every run, a declined one
included; declining therefore has this build-tree side effect while
leaving every file (profile and archive included) untouched. -/
theorem claim_C9 (s : String) (pd : FPath) (ts : String) (fs : FS) :
    EXTENSIONS_BUILD_DIR ∈ (updateSidebery s pd ts fs).fs.dirs ∧
    (pyLower s ≠ "y" →
      (updateSidebery s pd ts fs).fs.files = fs.files ∧
      (updateSidebery s pd ts fs).err = none) := by
  constructor
  · have hop : applyOp fs (Op.mkdirs EXTENSIONS_BUILD_DIR)
        = .ok (mkdirsFS fs EXTENSIONS_BUILD_DIR) := rfl
    show EXTENSIONS_BUILD_DIR ∈
      (runOps fs (Op.mkdirs EXTENSIONS_BUILD_DIR ::
        (if pyLower s = "y" then sideberyBodyOps pd ts else []))).fs.dirs
    rw [runOps_cons_ok hop]
    apply runOps_dirs_mono
    show EXTENSIONS_BUILD_DIR ∈ prefixesUpTo EXTENSIONS_BUILD_DIR ++ fs.dirs
    exact List.mem_append_left _ (by decide)
  · intro h
    constructor <;> simp [updateSidebery, updateSideberyOps, h, runOps, applyOp, mkdirsFS]

theorem claim_C9_witness :
    EXTENSIONS_BUILD_DIR ∈ (updateSidebery "n" demoProfilePath "t0" demoProfileFS).fs.dirs ∧
    (updateSidebery "n" demoProfilePath "t0" demoProfileFS).fs.files =
      demoProfileFS.files :=
  ⟨(claim_C9 "n" demoProfilePath "t0" demoProfileFS).1,
    ((claim_C9 "n" demoProfilePath "t0" demoProfileFS).2 (by decide)).1⟩

/-- C8: with a confirming answer but no user.js in the profile, the
installer fails with FileNotFoundError inside the first backup step; the
only executed operation is the creation of the backup directory, no file
anywhere is created or changed, and no directory under the (absolute)
profile path appears or disappears — the install step fails atomically
with respect to the profile. -/
theorem claim_C8 (s : String) (pd : FPath) (ts : String) (fs : FS)
    (hy : pyLower s = "y")
    (hpd : pd.head? = some "")
    (hmiss : alookup fs.files (pd ++ ["user.js"]) = none) :
    (installUserChrome s pd ts fs).err = some .fileNotFoundError ∧
    (installUserChrome s pd ts fs).executed = [Op.mkdirs (BACKUP_DIR ts)] ∧
    (installUserChrome s pd ts fs).fs.files = fs.files ∧
    (∀ q : FPath, pd <+: q →
      ((q ∈ (installUserChrome s pd ts fs).fs.dirs) ↔ q ∈ fs.dirs)) := by
  obtain ⟨a, pd', rfl⟩ : ∃ a pd', pd = a :: pd' := by
    cases pd with
    | nil => cases hpd
    | cons a t => exact ⟨a, t, rfl⟩
  have ha : a = "" := by simpa using hpd
  subst ha
  have hops : installUserChromeOps s ("" :: pd') ts = installBodyOps ("" :: pd') ts := by
    simp [installUserChromeOps, hy]
  have hop1 : applyOp fs (Op.mkdirs (BACKUP_DIR ts))
      = .ok (mkdirsFS fs (BACKUP_DIR ts)) := rfl
  have hop2 : applyOp (mkdirsFS fs (BACKUP_DIR ts))
      (Op.copy (("" :: pd') ++ ["user.js"]) (BACKUP_DIR ts ++ ["user.js"]))
      = .error .fileNotFoundError := by
    simp only [applyOp]
    rw [show (mkdirsFS fs (BACKUP_DIR ts)).files = fs.files from rfl, hmiss]
  show _ ∧ _ ∧ _ ∧ _
  rw [installUserChrome, hops, installBodyOps, runOps_cons_ok hop1, runOps_cons_err hop2]
  refine ⟨rfl, rfl, rfl, ?_⟩
  intro q hq
  obtain ⟨r, rfl⟩ := hq
  show ("" :: pd') ++ r ∈ prefixesUpTo (BACKUP_DIR ts) ++ fs.dirs ↔ _
  have hpre : prefixesUpTo (BACKUP_DIR ts) = [["backups"], ["backups", ts]] := rfl
  rw [hpre]
  have h1 : ("" :: pd') ++ r ≠ ["backups"] := by
    rw [List.cons_append]
    exact ne_of_head_ne _ _ (by decide)
  have h2 : ("" :: pd') ++ r ≠ ["backups", ts] := by
    rw [List.cons_append]
    exact ne_of_head_ne _ _ (by decide)
  constructor
  · intro hin
    rcases List.mem_append.1 hin with hl | hr
    · rcases List.mem_cons.1 hl with hc | hc
      · exact absurd hc h1
      · rcases List.mem_cons.1 hc with hc2 | hc2
        · exact absurd hc2 h2
        · cases hc2
    · exact hr
  · intro hin
    exact List.mem_append_right _ hin

theorem claim_C8_witness :
    (installUserChrome "y" demoProfilePath "t0" demoProfileFS).err =
      some .fileNotFoundError ∧
    (installUserChrome "y" demoProfilePath "t0" demoProfileFS).executed =
      [Op.mkdirs (BACKUP_DIR "t0")] := by
  have h := claim_C8 "y" demoProfilePath "t0" demoProfileFS rfl rfl rfl
  exact ⟨h.1, h.2.1⟩

/-- C3 counterexample: the claim quantifies over every component HTML
document, but a document already holding two elements with the marker id
keeps two of them after patching twice (each application replaces only
the first match), so the result does not contain exactly one marker
element. -/
theorem claim_C3_counterexample :
    patchCountTwice "sidebar" dupMarkerDoc = some 2 ∧
    patchCountTwice "sidebar" dupMarkerDoc ≠ some 1 := by
  exact ⟨by decide, by decide⟩

/-- C3 (amended): for every component HTML document holding at most one
element with the marker identifier, if applying the stylesheet patch
twice succeeds then the final document holds exactly one marker link
element — the second application replaces the element inserted by the
first instead of appending a duplicate. -/
theorem claim_C3 (component : String) (d d1 d2 : NodeList)
    (hle : countIdL SIDEBERY_CUSTOM_THEME_TAG_ID d ≤ 1)
    (h1 : patchComponent component d = some d1)
    (h2 : patchComponent component d1 = some d2) :
    countIdL SIDEBERY_CUSTOM_THEME_TAG_ID d2 = 1 := by
  have hc1 := patchComponent_count component d d1 hle h1
  exact patchComponent_count component d1 d2 hc1.le h2

theorem claim_C3_witness :
    ∃ d1 d2, patchComponent "sidebar" sampleHeadDoc = some d1 ∧
      patchComponent "sidebar" d1 = some d2 ∧
      countIdL SIDEBERY_CUSTOM_THEME_TAG_ID d2 = 1 := by
  refine ⟨_, _, rfl, rfl, ?_⟩
  exact claim_C3 "sidebar" sampleHeadDoc _ _ (by decide) rfl rfl

/-- C4 counterexample: the claim asserts that when no marker element
exists the freshly built link element is appended to the document head;
on a document with no head element nothing is appended — soup.head is
None and the step fails with AttributeError (the none result). -/
theorem claim_C4_counterexample :
    findIdL SIDEBERY_CUSTOM_THEME_TAG_ID headlessDoc = false ∧
    patchComponent "sidebar" headlessDoc = none := by
  exact ⟨by decide, by rfl⟩

/-- C4 (amended): the patch step builds a link element with
rel=stylesheet, type=text/css, href pointing at the component CSS file
inside the custom theme directory, and the marker id; if some element
carries the marker id the first one (document order) is replaced in
place, otherwise, when the document has a head element, the new element
is appended to the first head (raising the marker count by one), and
when it has neither marker nor head the step fails; on success the file
is rewritten in full with the pretty-printed markup of the patched
document. -/
theorem claim_C4 (component : String) (d : NodeList) :
    (attrLookup (nodeAttrs (cssLinkTag component)) "rel" = some "stylesheet" ∧
     attrLookup (nodeAttrs (cssLinkTag component)) "type" = some "text/css" ∧
     attrLookup (nodeAttrs (cssLinkTag component)) "href" =
       some ("../themes/floorpier/" ++ component ++ ".css") ∧
     attrLookup (nodeAttrs (cssLinkTag component)) "id" =
       some SIDEBERY_CUSTOM_THEME_TAG_ID) ∧
    (findIdL SIDEBERY_CUSTOM_THEME_TAG_ID d = true →
      patchComponent component d =
        some (replaceFirstL SIDEBERY_CUSTOM_THEME_TAG_ID (cssLinkTag component) d).1) ∧
    (findIdL SIDEBERY_CUSTOM_THEME_TAG_ID d = false →
      ((appendHeadL (cssLinkTag component) d).2 = true →
        patchComponent component d = some (appendHeadL (cssLinkTag component) d).1 ∧
        countIdL SIDEBERY_CUSTOM_THEME_TAG_ID (appendHeadL (cssLinkTag component) d).1 =
          countIdL SIDEBERY_CUSTOM_THEME_TAG_ID d + 1) ∧
      ((appendHeadL (cssLinkTag component) d).2 = false →
        patchComponent component d = none)) ∧
    (∀ d', patchComponent component d = some d' →
      updateComponentHtml component d = some (prettify d')) := by
  refine ⟨?_, ?_, ?_, ?_⟩
  · refine ⟨rfl, rfl, ?_, rfl⟩
    have : "../" ++ SIDEBERY_CUSTOM_THEME_REL_DIR ++ "/" = "../themes/floorpier/" := rfl
    simp [cssLinkTag, nodeAttrs, attrLookup, SIDEBERY_CUSTOM_THEME_REL_DIR]
  · intro hf
    simp [patchComponent, hf]
  · intro hf
    constructor
    · intro hb
      constructor
      · simp [patchComponent, hf, hb]
      · rw [appendHeadL_count _ _ d hb, countIdN_cssLinkTag]
    · intro hb
      simp [patchComponent, hf, hb]
  · intro d' h
    simp [updateComponentHtml, h]

theorem claim_C4_witness :
    patchComponent "sidebar" sampleHeadDoc =
      some (appendHeadL (cssLinkTag "sidebar") sampleHeadDoc).1 ∧
    countIdL SIDEBERY_CUSTOM_THEME_TAG_ID
      (appendHeadL (cssLinkTag "sidebar") sampleHeadDoc).1 =
      countIdL SIDEBERY_CUSTOM_THEME_TAG_ID sampleHeadDoc + 1 ∧
    updateComponentHtml "sidebar" sampleHeadDoc =
      some (prettify (appendHeadL (cssLinkTag "sidebar") sampleHeadDoc).1) := by
  have h := claim_C4 "sidebar" sampleHeadDoc
  have h3 := (h.2.2.1 (by decide)).1 (by decide)
  exact ⟨h3.1, h3.2, h.2.2.2 _ h3.1⟩

/-- C5 counterexample: the claim quantifies over every theme source tree
and every file not carrying the template suffix.  Two failures: (1)
ignore_patterns applies to directory names as well, so a non-template
file below a directory named sub.jinja is never copied; (2) the render
phase runs after the copy phase, so a template a.css.jinja overwrites
the copied non-template a.css (the renderer is instantiated with the
identity, which is how Jinja2 renders purely static text). -/
theorem claim_C5_counterexample :
    isTemplateName "a.css" = false ∧
    prepareFiles (fun s => s) [(["sub.jinja", "a.css"], "x")] ["sub.jinja", "a.css"]
      = none ∧
    prepareFiles (fun s => s) [(["a.css"], "x"), (["a.css.jinja"], "T")] ["a.css"]
      = some "T" ∧
    ("T" : String) ≠ "x" := by
  exact ⟨by decide, by rfl, by rfl, by decide⟩

/-- C5 (amended): every file of the theme source tree none of whose path
components (directory names included) carries the template suffix, and
onto whose path no template file renders, appears in the build tree at
the same relative path with byte-identical content, whatever the
rendering function does. -/
theorem claim_C5 (render : String → String) (tree : List (FPath × String))
    (p : FPath) (c : String)
    (hn : (tree.map Prod.fst).Nodup)
    (hm : (p, c) ∈ tree)
    (hclean : ∀ n ∈ p, isTemplateName n = false)
    (hno : ∀ q c', (q, c') ∈ tree → isTemplateName (lastNameP q) = true →
      templateOutPath q ≠ p) :
    prepareFiles render tree p = some c := by
  have h1 : lastLookup (renderedFiles render tree) p = none :=
    lastLookup_renderedFiles_none render tree p hno
  have hanyf : p.any isTemplateName = false := by
    rcases hany : p.any isTemplateName with _ | _
    · rfl
    · rcases List.any_eq_true.1 hany with ⟨n, hnp, htn⟩
      rw [hclean n hnp] at htn
      cases htn
  have h2 : lastLookup (copiedFiles tree) p = some c :=
    lastLookup_copiedFiles tree p c hn hm hanyf
  simp [prepareFiles, h1, h2]

theorem claim_C5_witness :
    prepareFiles (fun s => s) [(["style.css"], "body")] ["style.css"] = some "body" :=
  claim_C5 (fun s => s) [(["style.css"], "body")] ["style.css"] "body"
    (by decide) (by decide) (by decide)
    (by
      intro q c' hq ht
      obtain ⟨rfl, rfl⟩ := Prod.ext_iff.1 (List.mem_singleton.1 hq)
      exact absurd ht (by decide))

/-- C6 counterexample: a file named exactly .jinja carries the template
suffix, but os.path.splitext strips nothing from a pure dotfile, so the
rendered output is written under the unchanged name .jinja instead of
the suffix-stripped relative path (the empty name). -/
theorem claim_C6_counterexample :
    isTemplateName ".jinja" = true ∧
    prepareFiles (fun s => s) [([".jinja"], "T")] [""] = none ∧
    prepareFiles (fun s => s) [([".jinja"], "T")] [".jinja"] = some "T" := by
  exact ⟨by decide, by rfl, by rfl⟩

/-- C6 (amended): every template file whose name with the suffix removed
still holds a character other than a dot (so splitext strips exactly the
.jinja suffix), and whose output path no other template also renders
onto, is rendered into the build tree at its source relative path with
the suffix stripped; the output bytes are a function of the template
content alone (the render argument), which is the determinism the claim
states, since no external variables are bound. -/
theorem claim_C6 (render : String → String) (tree : List (FPath × String))
    (d : FPath) (b : String) (c : String)
    (hn : (tree.map Prod.fst).Nodup)
    (hm : (d ++ [b ++ ".jinja"], c) ∈ tree)
    (hb : ∃ ch ∈ b.data, ch ≠ '.')
    (hu : ∀ q c', (q, c') ∈ tree → isTemplateName (lastNameP q) = true →
      templateOutPath q = d ++ [b] → q = d ++ [b ++ ".jinja"]) :
    prepareFiles render tree (d ++ [b]) = some (render c) := by
  have hout : templateOutPath (d ++ [b ++ ".jinja"]) = d ++ [b] := by
    rw [templateOutPath_append, splitextBase_append_jinja b hb]
  have ht : isTemplateName (lastNameP (d ++ [b ++ ".jinja"])) = true := by
    rw [lastNameP_append]
    exact isTemplateName_append b
  have hu2 : ∀ q c', (q, c') ∈ tree → isTemplateName (lastNameP q) = true →
      templateOutPath q = templateOutPath (d ++ [b ++ ".jinja"]) →
      q = d ++ [b ++ ".jinja"] := by
    intro q c' hq hqt hqout
    exact hu q c' hq hqt (hqout.trans hout)
  have hr0 := lastLookup_renderedFiles render tree (d ++ [b ++ ".jinja"]) c hn hm ht hu2
  rw [hout] at hr0
  simp [prepareFiles, hr0]

theorem claim_C6_witness :
    prepareFiles (fun s => s) [(["x", "style.css.jinja"], "tpl")] (["x"] ++ ["style.css"])
      = some "tpl" :=
  claim_C6 (fun s => s) [(["x", "style.css.jinja"], "tpl")] ["x"] "style.css" "tpl"
    (by decide) (by decide) (by decide)
    (by
      intro q c' hq ht hqout
      obtain ⟨rfl, rfl⟩ := Prod.ext_iff.1 (List.mem_singleton.1 hq)
      decide)

/-- Writing a batch of entries that all live under a base directory does
not affect the lookup of a path outside that base. -/
theorem alookup_writeAll_mapped {α : Type} (m : List (FPath × α)) (base : FPath)
    (es : List (FPath × α)) (k : FPath) (h : ∀ r : FPath, base ++ r ≠ k) :
    alookup (writeAll m (es.map (fun e => (base ++ e.1, e.2)))) k = alookup m k := by
  apply alookup_writeAll_none
  apply lastLookup_eq_none
  intro e he
  rcases List.mem_map.1 he with ⟨a, _, rfl⟩
  exact h a.1


/-- C2: in every confirmed run of _update_sidebery the archive at its
original path inside the profile is overwritten only after the unpack,
HTML-patch and repack steps all completed (any failure leaves the
original archive untouched); in a completed run the whole straight-line
trace executed, the operation immediately before the final overwrite is
the move of the original archive into the extensions backup directory,
between that move and the overwrite the original path holds no file at
all (so the original was moved, neither deleted nor copied), and the
final state holds the original archive bytes at the backup path. -/
theorem claim_C2 (s : String) (pd : FPath) (ts : String) (fs : FS)
    (hy : pyLower s = "y")
    (hpd : pd.head? = some "") :
    ((updateSidebery s pd ts fs).err ≠ none →
      alookup (updateSidebery s pd ts fs).fs.files (xpiPath pd)
        = alookup fs.files (xpiPath pd)) ∧
    ((updateSidebery s pd ts fs).err = none →
      (updateSidebery s pd ts fs).executed = updateSideberyOps s pd ts ∧
      (∃ pre, updateSideberyOps s pd ts =
          pre ++ [Op.move (xpiPath pd) (backupXpiPath ts),
                  Op.copy repackZipPath (xpiPath pd),
                  Op.print "Successfully installed theme/styles into Sidebery"] ∧
        Op.unpack buildXpiPath sideberyBuildPath ∈ pre ∧
        Op.patchHtml sidebarHtmlPath "sidebar" ∈ pre ∧
        Op.repack sideberyBuildPath buildXpiPath ∈ pre) ∧
      (∃ c, alookup fs.files (xpiPath pd) = some c ∧
        alookup (updateSidebery s pd ts fs).fs.files (backupXpiPath ts) = some c ∧
        alookup (runOps fs ((updateSideberyOps s pd ts).take 9)).fs.files (xpiPath pd)
          = none) ∧
      (∃ v, alookup (updateSidebery s pd ts fs).fs.files (xpiPath pd) = some v)) := by
  obtain ⟨a, pd', rfl⟩ : ∃ a pd', pd = a :: pd' := by
    cases pd with
    | nil => cases hpd
    | cons a t => exact ⟨a, t, rfl⟩
  have ha : a = "" := by simpa using hpd
  subst ha
  have hxp : xpiPath ("" :: pd')
      = "" :: (pd' ++ ["extensions", SIDEBERY_EXTENSION_FILENAME]) := by
    simp [xpiPath]
  have hbne : ∀ (t r : FPath), ("build" :: t : FPath) ++ r ≠ xpiPath ("" :: pd') := by
    intro t r
    rw [hxp, List.cons_append]
    exact ne_of_head_ne _ _ (by decide)
  have hbne0 : ∀ (t : FPath), ("build" :: t : FPath) ≠ xpiPath ("" :: pd') := by
    intro t
    have h := hbne t []
    rwa [List.append_nil] at h
  have hxp_bxpi : xpiPath ("" :: pd') ≠ buildXpiPath := Ne.symm (hbne0 _)
  have hxp_rp : xpiPath ("" :: pd') ≠ repackZipPath := Ne.symm (hbne0 _)
  have hrp_xp : repackZipPath ≠ xpiPath ("" :: pd') := hbne0 _
  have hxp_sb : xpiPath ("" :: pd') ≠ sidebarHtmlPath := Ne.symm (hbne0 _)
  have hbk_xp : backupXpiPath ts ≠ xpiPath ("" :: pd') := by
    rw [hxp]
    exact ne_of_head_ne _ _ (by decide)
  have hxp_bk : xpiPath ("" :: pd') ≠ backupXpiPath ts := Ne.symm hbk_xp
  have hrp_bk : repackZipPath ≠ backupXpiPath ts :=
    Ne.symm (ne_of_head_ne _ _ (by decide))
  have hops : updateSideberyOps s ("" :: pd') ts
      = Op.mkdirs EXTENSIONS_BUILD_DIR :: sideberyBodyOps ("" :: pd') ts := by
    simp [updateSideberyOps, hy]
  have e0 : applyOp fs (Op.mkdirs EXTENSIONS_BUILD_DIR)
      = .ok ⟨fs.files, patchD1 fs⟩ := rfl
  rcases hsrc : alookup fs.files (xpiPath ("" :: pd')) with _ | c
  · -- the archive is absent: the staging copy fails before anything else
    have e1 : applyOp ⟨fs.files, patchD1 fs⟩
        (Op.copy (xpiPath ("" :: pd')) buildXpiPath) = .error .fileNotFoundError := by
      simp only [applyOp]
      rw [hsrc]
    have hrun : updateSidebery s ("" :: pd') ts fs
        = ⟨⟨fs.files, patchD1 fs⟩,
            [Op.mkdirs EXTENSIONS_BUILD_DIR], some .fileNotFoundError⟩ := by
      simp only [updateSidebery]
      rw [hops]
      simp only [sideberyBodyOps]
      rw [runOps_cons_ok e0, runOps_cons_err e1]
    rw [hrun]
    exact ⟨fun _ => hsrc, fun h => by cases h⟩
  · have e1 : applyOp ⟨fs.files, patchD1 fs⟩
        (Op.copy (xpiPath ("" :: pd')) buildXpiPath)
        = .ok ⟨patchF1 fs c, patchD1 fs⟩ := by
      simp only [applyOp]
      rw [hsrc]
      rfl
    have hxpF1 : alookup (patchF1 fs c) (xpiPath ("" :: pd'))
        = alookup fs.files (xpiPath ("" :: pd')) :=
      alookup_aset_ne _ _ _ _ hxp_bxpi
    rcases c with s0 | d0 | es
    · -- not a zip archive: unpack fails, only the staging copy happened
      have e2 : applyOp ⟨patchF1 fs (.str s0), patchD1 fs⟩
          (Op.unpack buildXpiPath sideberyBuildPath) = .error .badZipFile := by
        simp only [applyOp, patchF1]
        rw [alookup_aset_eq]
      have hrun : updateSidebery s ("" :: pd') ts fs
          = ⟨⟨patchF1 fs (.str s0), patchD1 fs⟩,
              [Op.mkdirs EXTENSIONS_BUILD_DIR,
               Op.copy (xpiPath ("" :: pd')) buildXpiPath], some .badZipFile⟩ := by
        simp only [updateSidebery]
        rw [hops]
        simp only [sideberyBodyOps]
        rw [runOps_cons_ok e0, runOps_cons_ok e1, runOps_cons_err e2]
      rw [hrun]
      exact ⟨fun _ => hxpF1.trans hsrc, fun h => by cases h⟩
    · -- a parsed document: also not a valid archive, unpack fails
      have e2 : applyOp ⟨patchF1 fs (.doc d0), patchD1 fs⟩
          (Op.unpack buildXpiPath sideberyBuildPath) = .error .badZipFile := by
        simp only [applyOp, patchF1]
        rw [alookup_aset_eq]
      have hrun : updateSidebery s ("" :: pd') ts fs
          = ⟨⟨patchF1 fs (.doc d0), patchD1 fs⟩,
              [Op.mkdirs EXTENSIONS_BUILD_DIR,
               Op.copy (xpiPath ("" :: pd')) buildXpiPath], some .badZipFile⟩ := by
        simp only [updateSidebery]
        rw [hops]
        simp only [sideberyBodyOps]
        rw [runOps_cons_ok e0, runOps_cons_ok e1, runOps_cons_err e2]
      rw [hrun]
      exact ⟨fun _ => hxpF1.trans hsrc, fun h => by cases h⟩
    · -- a zip archive: walk the rest of the pipeline
      have e2 : applyOp ⟨patchF1 fs (.zip es), patchD1 fs⟩
          (Op.unpack buildXpiPath sideberyBuildPath)
          = .ok ⟨patchF2 fs es, patchD2 fs⟩ := by
        simp only [applyOp, patchF1]
        rw [alookup_aset_eq]
        rfl
      have hxpF2 : alookup (patchF2 fs es) (xpiPath ("" :: pd'))
          = alookup (patchF1 fs (.zip es)) (xpiPath ("" :: pd')) :=
        alookup_writeAll_mapped _ sideberyBuildPath es _
          (fun r => hbne ["extensions", SIDEBERY_EXTENSION_ID] r)
      have e3 : applyOp ⟨patchF2 fs es, patchD2 fs⟩ (Op.mkdirs customThemePath)
          = .ok ⟨patchF2 fs es, patchD3 fs⟩ := rfl
      rcases hdir : dirExists ⟨patchF2 fs es, patchD3 fs⟩ SIDEBERY_THEME_BUILD_DIR
        with _ | _
      · -- build/sidebery missing: the theme copytree fails
        have e4 : applyOp ⟨patchF2 fs es, patchD3 fs⟩
            (Op.copytree true SIDEBERY_THEME_BUILD_DIR customThemePath)
            = .error .fileNotFoundError := by
          simp [applyOp, hdir]
        have hrun : updateSidebery s ("" :: pd') ts fs
            = ⟨⟨patchF2 fs es, patchD3 fs⟩,
                [Op.mkdirs EXTENSIONS_BUILD_DIR,
                 Op.copy (xpiPath ("" :: pd')) buildXpiPath,
                 Op.unpack buildXpiPath sideberyBuildPath,
                 Op.mkdirs customThemePath], some .fileNotFoundError⟩ := by
          simp only [updateSidebery]
          rw [hops]
          simp only [sideberyBodyOps]
          rw [runOps_cons_ok e0, runOps_cons_ok e1, runOps_cons_ok e2,
            runOps_cons_ok e3, runOps_cons_err e4]
        rw [hrun]
        exact ⟨fun _ => (hxpF2.trans hxpF1).trans hsrc, fun h => by cases h⟩
      · -- the theme copytree succeeds
        have e4 : applyOp ⟨patchF2 fs es, patchD3 fs⟩
            (Op.copytree true SIDEBERY_THEME_BUILD_DIR customThemePath)
            = .ok ⟨patchF3 fs es, patchD4 fs⟩ := by
          simp [applyOp, hdir, patchF3, ctEntries, patchD4]
        have hxpF3 : alookup (patchF3 fs es) (xpiPath ("" :: pd'))
            = alookup (patchF2 fs es) (xpiPath ("" :: pd')) :=
          alookup_writeAll_mapped _ customThemePath _ _
            (fun r => hbne ["extensions", SIDEBERY_EXTENSION_ID, "themes", "floorpier"] r)
        have hxpchain : alookup (patchF3 fs es) (xpiPath ("" :: pd'))
            = some (FData.zip es) :=
          ((hxpF3.trans hxpF2).trans hxpF1).trans hsrc
        rcases hv : alookup (patchF3 fs es) sidebarHtmlPath with _ | v
        · -- sidebar/sidebar.html missing in the archive: the patch fails
          have e5 : applyOp ⟨patchF3 fs es, patchD4 fs⟩
              (Op.patchHtml sidebarHtmlPath "sidebar") = .error .fileNotFoundError := by
            simp only [applyOp]
            rw [hv]
          have hrun : updateSidebery s ("" :: pd') ts fs
              = ⟨⟨patchF3 fs es, patchD4 fs⟩,
                  [Op.mkdirs EXTENSIONS_BUILD_DIR,
                   Op.copy (xpiPath ("" :: pd')) buildXpiPath,
                   Op.unpack buildXpiPath sideberyBuildPath,
                   Op.mkdirs customThemePath,
                   Op.copytree true SIDEBERY_THEME_BUILD_DIR customThemePath],
                  some .fileNotFoundError⟩ := by
            simp only [updateSidebery]
            rw [hops]
            simp only [sideberyBodyOps]
            rw [runOps_cons_ok e0, runOps_cons_ok e1, runOps_cons_ok e2,
              runOps_cons_ok e3, runOps_cons_ok e4, runOps_cons_err e5]
          rw [hrun]
          exact ⟨fun _ => hxpchain, fun h => by cases h⟩
        · rcases v with s1 | d1 | zs
          · -- the html file is an unparsed blob in the model: failure
            have e5 : applyOp ⟨patchF3 fs es, patchD4 fs⟩
                (Op.patchHtml sidebarHtmlPath "sidebar")
                = .error .unparsedContent := by
              simp only [applyOp, hv]
            have hrun : updateSidebery s ("" :: pd') ts fs
                = ⟨⟨patchF3 fs es, patchD4 fs⟩,
                    [Op.mkdirs EXTENSIONS_BUILD_DIR,
                     Op.copy (xpiPath ("" :: pd')) buildXpiPath,
                     Op.unpack buildXpiPath sideberyBuildPath,
                     Op.mkdirs customThemePath,
                     Op.copytree true SIDEBERY_THEME_BUILD_DIR customThemePath],
                    some .unparsedContent⟩ := by
              simp only [updateSidebery]
              rw [hops]
              simp only [sideberyBodyOps]
              rw [runOps_cons_ok e0, runOps_cons_ok e1, runOps_cons_ok e2,
                runOps_cons_ok e3, runOps_cons_ok e4, runOps_cons_err e5]
            rw [hrun]
            exact ⟨fun _ => hxpchain, fun h => by cases h⟩
          · -- a parsed document: the in-memory patch runs
            rcases hp : patchComponent "sidebar" d1 with _ | d2
            · -- no marker and no head element: AttributeError
              have e5 : applyOp ⟨patchF3 fs es, patchD4 fs⟩
                  (Op.patchHtml sidebarHtmlPath "sidebar")
                  = .error .attributeError := by
                simp only [applyOp, hv, hp]
              have hrun : updateSidebery s ("" :: pd') ts fs
                  = ⟨⟨patchF3 fs es, patchD4 fs⟩,
                      [Op.mkdirs EXTENSIONS_BUILD_DIR,
                       Op.copy (xpiPath ("" :: pd')) buildXpiPath,
                       Op.unpack buildXpiPath sideberyBuildPath,
                       Op.mkdirs customThemePath,
                       Op.copytree true SIDEBERY_THEME_BUILD_DIR customThemePath],
                      some .attributeError⟩ := by
                simp only [updateSidebery]
                rw [hops]
                simp only [sideberyBodyOps]
                rw [runOps_cons_ok e0, runOps_cons_ok e1, runOps_cons_ok e2,
                  runOps_cons_ok e3, runOps_cons_ok e4, runOps_cons_err e5]
              rw [hrun]
              exact ⟨fun _ => hxpchain, fun h => by cases h⟩
            · -- the patch succeeds: repack, backup move, final overwrite
              have e5 : applyOp ⟨patchF3 fs es, patchD4 fs⟩
                  (Op.patchHtml sidebarHtmlPath "sidebar")
                  = .ok ⟨patchF4 fs es d2, patchD4 fs⟩ := by
                simp only [applyOp, hv, hp]
                rfl
              have e6 : applyOp ⟨patchF4 fs es d2, patchD4 fs⟩
                  (Op.repack sideberyBuildPath buildXpiPath)
                  = .ok ⟨patchF5 fs es d2, patchD4 fs⟩ := rfl
              have e7 : applyOp ⟨patchF5 fs es d2, patchD4 fs⟩
                  (Op.mkdirs (EXTENSIONS_BACKUP_DIR ts))
                  = .ok ⟨patchF5 fs es d2, patchD6 fs ts⟩ := rfl
              have hF5xp : alookup (patchF5 fs es d2) (xpiPath ("" :: pd'))
                  = some (FData.zip es) := by
                rw [patchF5, alookup_aset_ne _ _ _ _ hxp_rp,
                  patchF4, alookup_aset_ne _ _ _ _ hxp_sb]
                exact hxpchain
              have e8 : applyOp ⟨patchF5 fs es d2, patchD6 fs ts⟩
                  (Op.move (xpiPath ("" :: pd')) (backupXpiPath ts))
                  = .ok ⟨patchF6 fs es d2 ("" :: pd') ts, patchD6 fs ts⟩ := by
                simp only [applyOp]
                rw [hF5xp]
                rfl
              have hF6rp : alookup (patchF6 fs es d2 ("" :: pd') ts) repackZipPath
                  = some (FData.zip (filesUnder (patchF4 fs es d2) sideberyBuildPath)) := by
                rw [patchF6, alookup_aset_ne _ _ _ _ hrp_bk,
                  alookup_aerase_ne _ _ _ hrp_xp, patchF5]
                exact alookup_aset_eq _ _ _
              have e9 : applyOp ⟨patchF6 fs es d2 ("" :: pd') ts, patchD6 fs ts⟩
                  (Op.copy repackZipPath (xpiPath ("" :: pd')))
                  = .ok ⟨patchF7 fs es d2 ("" :: pd') ts, patchD6 fs ts⟩ := by
                simp only [applyOp]
                rw [hF6rp]
                rfl
              have e10 : applyOp ⟨patchF7 fs es d2 ("" :: pd') ts, patchD6 fs ts⟩
                  (Op.print "Successfully installed theme/styles into Sidebery")
                  = .ok ⟨patchF7 fs es d2 ("" :: pd') ts, patchD6 fs ts⟩ := rfl
              have hrun : updateSidebery s ("" :: pd') ts fs
                  = ⟨⟨patchF7 fs es d2 ("" :: pd') ts, patchD6 fs ts⟩,
                      Op.mkdirs EXTENSIONS_BUILD_DIR :: sideberyBodyOps ("" :: pd') ts,
                      none⟩ := by
                simp only [updateSidebery]
                rw [hops]
                simp only [sideberyBodyOps]
                rw [runOps_cons_ok e0, runOps_cons_ok e1, runOps_cons_ok e2,
                  runOps_cons_ok e3, runOps_cons_ok e4, runOps_cons_ok e5,
                  runOps_cons_ok e6, runOps_cons_ok e7, runOps_cons_ok e8,
                  runOps_cons_ok e9, runOps_cons_ok e10, runOps_nil]
              have htake : (updateSideberyOps s ("" :: pd') ts).take 9
                  = [Op.mkdirs EXTENSIONS_BUILD_DIR,
                     Op.copy (xpiPath ("" :: pd')) buildXpiPath,
                     Op.unpack buildXpiPath sideberyBuildPath,
                     Op.mkdirs customThemePath,
                     Op.copytree true SIDEBERY_THEME_BUILD_DIR customThemePath,
                     Op.patchHtml sidebarHtmlPath "sidebar",
                     Op.repack sideberyBuildPath buildXpiPath,
                     Op.mkdirs (EXTENSIONS_BACKUP_DIR ts),
                     Op.move (xpiPath ("" :: pd')) (backupXpiPath ts)] := by
                rw [hops]
                simp only [sideberyBodyOps]
                rfl
              have hrun9 : runOps fs ((updateSideberyOps s ("" :: pd') ts).take 9)
                  = ⟨⟨patchF6 fs es d2 ("" :: pd') ts, patchD6 fs ts⟩,
                      [Op.mkdirs EXTENSIONS_BUILD_DIR,
                       Op.copy (xpiPath ("" :: pd')) buildXpiPath,
                       Op.unpack buildXpiPath sideberyBuildPath,
                       Op.mkdirs customThemePath,
                       Op.copytree true SIDEBERY_THEME_BUILD_DIR customThemePath,
                       Op.patchHtml sidebarHtmlPath "sidebar",
                       Op.repack sideberyBuildPath buildXpiPath,
                       Op.mkdirs (EXTENSIONS_BACKUP_DIR ts),
                       Op.move (xpiPath ("" :: pd')) (backupXpiPath ts)], none⟩ := by
                rw [htake]
                rw [runOps_cons_ok e0, runOps_cons_ok e1, runOps_cons_ok e2,
                  runOps_cons_ok e3, runOps_cons_ok e4, runOps_cons_ok e5,
                  runOps_cons_ok e6, runOps_cons_ok e7, runOps_cons_ok e8,
                  runOps_nil]
              refine ⟨fun hne => ?_, fun _ => ⟨?_, ?_, ?_, ?_⟩⟩
              · rw [hrun] at hne
                exact absurd rfl hne
              · rw [hrun, hops]
              · refine ⟨[Op.mkdirs EXTENSIONS_BUILD_DIR,
                  Op.copy (xpiPath ("" :: pd')) buildXpiPath,
                  Op.unpack buildXpiPath sideberyBuildPath,
                  Op.mkdirs customThemePath,
                  Op.copytree true SIDEBERY_THEME_BUILD_DIR customThemePath,
                  Op.patchHtml sidebarHtmlPath "sidebar",
                  Op.repack sideberyBuildPath buildXpiPath,
                  Op.mkdirs (EXTENSIONS_BACKUP_DIR ts)], ?_, ?_, ?_, ?_⟩
                · rw [hops]
                  simp only [sideberyBodyOps]
                  rfl
                · simp
                · simp
                · simp
              · refine ⟨FData.zip es, rfl, ?_, ?_⟩
                · rw [hrun]
                  show alookup (patchF7 fs es d2 ("" :: pd') ts) (backupXpiPath ts)
                    = some (FData.zip es)
                  rw [patchF7, alookup_aset_ne _ _ _ _ hbk_xp, patchF6]
                  exact alookup_aset_eq _ _ _
                · rw [hrun9]
                  show alookup (patchF6 fs es d2 ("" :: pd') ts) (xpiPath ("" :: pd'))
                    = none
                  rw [patchF6, alookup_aset_ne _ _ _ _ hxp_bk]
                  exact alookup_aerase_self _ _
              · refine ⟨FData.zip (filesUnder (patchF4 fs es d2) sideberyBuildPath), ?_⟩
                rw [hrun]
                show alookup (patchF7 fs es d2 ("" :: pd') ts) (xpiPath ("" :: pd'))
                  = some (FData.zip (filesUnder (patchF4 fs es d2) sideberyBuildPath))
                rw [patchF7]
                exact alookup_aset_eq _ _ _
          · -- a nested zip where the html should be: failure
            have e5 : applyOp ⟨patchF3 fs es, patchD4 fs⟩
                (Op.patchHtml sidebarHtmlPath "sidebar")
                = .error .unparsedContent := by
              simp only [applyOp, hv]
            have hrun : updateSidebery s ("" :: pd') ts fs
                = ⟨⟨patchF3 fs es, patchD4 fs⟩,
                    [Op.mkdirs EXTENSIONS_BUILD_DIR,
                     Op.copy (xpiPath ("" :: pd')) buildXpiPath,
                     Op.unpack buildXpiPath sideberyBuildPath,
                     Op.mkdirs customThemePath,
                     Op.copytree true SIDEBERY_THEME_BUILD_DIR customThemePath],
                    some .unparsedContent⟩ := by
              simp only [updateSidebery]
              rw [hops]
              simp only [sideberyBodyOps]
              rw [runOps_cons_ok e0, runOps_cons_ok e1, runOps_cons_ok e2,
                runOps_cons_ok e3, runOps_cons_ok e4, runOps_cons_err e5]
            rw [hrun]
            exact ⟨fun _ => hxpchain, fun h => by cases h⟩

theorem claim_C2_witness :
    ∃ c, alookup demoProfileFS.files (xpiPath demoProfilePath) = some c ∧
      alookup (updateSidebery "y" demoProfilePath "t0" demoProfileFS).fs.files
        (backupXpiPath "t0") = some c ∧
      alookup (runOps demoProfileFS
          ((updateSideberyOps "y" demoProfilePath "t0").take 9)).fs.files
        (xpiPath demoProfilePath) = none :=
  ((claim_C2 "y" demoProfilePath "t0" demoProfileFS rfl rfl).2 rfl).2.2.1
